import Mathlib

/-!
fastschema: content deletion, schema detail and permission resolution

A shallow embedding of

* `services/content/delete.go`  (`ContentService.Delete`),
* `services/schema/detail.go`   (`SchemaService.Detail`),
* the role / permission lookups declared in `app/app.go`
  (`App.GetRolesFromIDs`, `App.GetRolePermission`).

The database client, the request context and the schema builder are Go
interfaces; they are taken as parameters.  A collaborator call is a function
of an explicit storage state `σ`, and every call that `Delete` makes is
recorded, with its outcome, in a trace.
-/

namespace fastschema

/-! ## Errors -/

/-- Modelled from the spec: the error kinds of section 7.  Package `pkg/errors`
is not among the sources; `BadRequest` is the kind of the one constructor the
sources call (`errors.BadRequest`), the others are the kinds the spec lists. -/
inductive ErrorKind where
  | BadRequest
  | NotFound
  | InvalidPredicate
  | InvalidPayload
  | Forbidden
  | Busy
  | MigrationValidationFailed
  | HookAborted
  | PostActionHookFailed
  | StorageFailure
  deriving DecidableEq

/-- A Go `error` value: what a caller can learn from it is its kind and the
text its `Error()` method yields. -/
structure GoError where
  kind : ErrorKind
  message : String
  deriving DecidableEq

/-- The method `err.Error()`. -/
def GoError.Error (e : GoError) : String := e.message

namespace errors

/-- Modelled from the spec: `errors.BadRequest(msg)` of package `pkg/errors`,
which is not among the sources.  It builds an error of kind `BadRequest`
carrying the given message. -/
def BadRequest (msg : String) : GoError := ⟨ErrorKind.BadRequest, msg⟩

end errors

/-! ## Request context and predicates -/

/-- The part of `app.Context` the two services read: `c.Arg(name)` and
`c.ArgInt(name)`. -/
structure Context where
  Arg : String → String
  ArgInt : String → Int

namespace app

/-- Comparison operators of a filter predicate. -/
inductive OperatorType where
  | OpEQ
  | OpNEQ
  | OpGT
  | OpGTE
  | OpLT
  | OpLTE
  deriving DecidableEq

/-- A typed filter condition on one field. -/
structure Predicate where
  Field : String
  Operator : OperatorType
  Value : Int
  deriving DecidableEq

/-- Modelled from the spec: `app.EQ(field, value)`, the equality predicate value
object of section 4.2 (its code is not among the sources). -/
def EQ (field : String) (value : Int) : Predicate := ⟨field, OperatorType.OpEQ, value⟩

end app

/-! ## The database client -/

/-- The value `model.Query(predicates...)`: a query descriptor, not yet run. -/
structure Query (M : Type) where
  model : M
  predicates : List app.Predicate

/-- The value `mutation.Where(predicates...)`: a mutation descriptor, not yet
run.  An empty `predicates` list is a mutation of unbounded scope. -/
structure Mutation (Mu : Type) where
  handle : Mu
  predicates : List app.Predicate

/-- The interface `db.Client` together with the model, query and mutation
interfaces reached through it.  `σ` is the state of the storage collaborator,
`M` a resolved model, `Mu` a freshly built mutation, `Ent` an entity. -/
structure Client (σ M Mu Ent : Type) where
  /-- The call `DB().Model(name)`. -/
  Model : String → σ → Except GoError M × σ
  /-- The call `query.Only()`: the single-entity lookup. -/
  Only : Query M → σ → Except GoError Ent × σ
  /-- The call `model.Mutation()`. -/
  Mutation : M → σ → Except GoError Mu × σ
  /-- The call `mutation.Delete()`: returns the number of affected rows. -/
  Delete : fastschema.Mutation Mu → σ → Except GoError Int × σ

/-- The builder step `model.Query(predicates...)`. -/
def Query.build {M : Type} (model : M) (predicates : List app.Predicate) : Query M :=
  ⟨model, predicates⟩

/-- The builder step `mutation.Where(predicates...)`. -/
def Mutation.Where {Mu : Type} (mutation : Mu) (predicates : List app.Predicate) :
    Mutation Mu :=
  ⟨mutation, predicates⟩

/-! ## `ContentService.Delete` -/

/-- The content service: all `Delete` uses of it is `cs.DB()`. -/
structure ContentService (σ M Mu Ent : Type) where
  DB : Client σ M Mu Ent

/-- The function `(*ContentService).Delete` of `services/content/delete.go`.
It yields the Go pair `(any, error)` and the storage state it leaves. -/
def ContentService.Delete {σ M Mu Ent : Type} (cs : ContentService σ M Mu Ent)
    (c : Context) (s0 : σ) : (Option Ent × Option GoError) × σ :=
  match cs.DB.Model (c.Arg "schema") s0 with
  | (.error err, s1) => ((none, some (errors.BadRequest err.Error)), s1)
  | (.ok model, s1) =>
    let id := c.ArgInt "id"
    match cs.DB.Only (Query.build model [app.EQ "id" id]) s1 with
    | (.error err, s2) => ((none, some (errors.BadRequest err.Error)), s2)
    | (.ok _, s2) =>
      match cs.DB.Mutation model s2 with
      | (.error err, s3) => ((none, some (errors.BadRequest err.Error)), s3)
      | (.ok mutation, s3) =>
        match cs.DB.Delete (Mutation.Where mutation [app.EQ "id" id]) s3 with
        | (.error err, s4) => ((none, some (errors.BadRequest err.Error)), s4)
        | (.ok _, s4) => ((none, none), s4)

/-! ## Observing the calls `Delete` makes -/

/-- One call made to the database client, with what it returned. -/
inductive Event (M Mu Ent : Type) where
  | Model (name : String) (out : Except GoError M)
  | Only (q : Query M) (out : Except GoError Ent)
  | Mutation (model : M) (out : Except GoError Mu)
  | Delete (mutation : fastschema.Mutation Mu) (out : Except GoError Int)

/-- The same client, keeping a log of every call it receives, oldest first, next
to the storage state.  It answers exactly as the client it wraps. -/
def Client.recorded {σ M Mu Ent : Type} (db : Client σ M Mu Ent) :
    Client (σ × List (Event M Mu Ent)) M Mu Ent where
  Model := fun name s =>
    ((db.Model name s.1).1, ((db.Model name s.1).2, s.2 ++ [Event.Model name (db.Model name s.1).1]))
  Only := fun q s =>
    ((db.Only q s.1).1, ((db.Only q s.1).2, s.2 ++ [Event.Only q (db.Only q s.1).1]))
  Mutation := fun model s =>
    ((db.Mutation model s.1).1,
      ((db.Mutation model s.1).2, s.2 ++ [Event.Mutation model (db.Mutation model s.1).1]))
  Delete := fun m s =>
    ((db.Delete m s.1).1, ((db.Delete m s.1).2, s.2 ++ [Event.Delete m (db.Delete m s.1).1]))

/-- What one call of `Delete` yields: the Go pair `(any, error)`, the calls it
made to the database client in order, and the storage state it leaves. -/
structure Run (σ M Mu Ent : Type) where
  result : Option Ent
  err : Option GoError
  trace : List (Event M Mu Ent)
  state : σ

/-- One call of `Delete` against the recording client, started on an empty log. -/
def ContentService.run {σ M Mu Ent : Type} (cs : ContentService σ M Mu Ent)
    (c : Context) (s0 : σ) : Run σ M Mu Ent :=
  ⟨((ContentService.mk cs.DB.recorded).Delete c (s0, [])).1.1,
   ((ContentService.mk cs.DB.recorded).Delete c (s0, [])).1.2,
   ((ContentService.mk cs.DB.recorded).Delete c (s0, [])).2.2,
   ((ContentService.mk cs.DB.recorded).Delete c (s0, [])).2.1⟩

/-- The four steps of `Delete`. -/
inductive Step where
  | Model
  | Only
  | Mutation
  | Delete
  deriving DecidableEq

/-- Which step an event belongs to. -/
def Event.step {M Mu Ent : Type} : Event M Mu Ent → Step
  | .Model _ _ => Step.Model
  | .Only _ _ => Step.Only
  | .Mutation _ _ => Step.Mutation
  | .Delete _ _ => Step.Delete

/-- The error the recorded call returned, if any. -/
def Event.error {M Mu Ent : Type} : Event M Mu Ent → Option GoError
  | .Model _ (.error e) => some e
  | .Only _ (.error e) => some e
  | .Mutation _ (.error e) => some e
  | .Delete _ (.error e) => some e
  | _ => none

/-- Whether the recorded call returned a nil error. -/
def Event.ok {M Mu Ent : Type} (ev : Event M Mu Ent) : Bool := ev.error.isNone

/-- How often a step occurs in a trace. -/
def countStep {M Mu Ent : Type} (s : Step) (tr : List (Event M Mu Ent)) : Nat :=
  (tr.filter (fun ev => decide (ev.step = s))).length

/-- The step whose call returned an error, if any call did: the cause of a
failed run. -/
def failedStep {M Mu Ent : Type} (tr : List (Event M Mu Ent)) : Option Step :=
  (tr.find? (fun ev => !ev.ok)).map Event.step

/-- The step `s` was executed. -/
def executed {M Mu Ent : Type} (s : Step) (tr : List (Event M Mu Ent)) : Bool :=
  tr.any (fun ev => decide (ev.step = s))

/-- The step `s` was executed and returned a nil error. -/
def succeeded {M Mu Ent : Type} (s : Step) (tr : List (Event M Mu Ent)) : Bool :=
  tr.any (fun ev => decide (ev.step = s) && ev.ok)

/-! ## `SchemaService.Detail` -/

/-- The schema service: all `Detail` uses of it is
`ss.app.SchemaBuilder().Schema(name)`, a Go function returning the pair
`(*schema.Schema, error)`; either component may be nil. -/
structure SchemaService (S : Type) where
  Schema : String → Option S × Option GoError

/-- The function `(*SchemaService).Detail` of `services/schema/detail.go`. -/
def SchemaService.Detail {S : Type} (ss : SchemaService S) (c : Context) :
    Option S × Option GoError :=
  match ss.Schema (c.Arg "name") with
  | (_, some err) => (none, some err)
  | (s, none) => (s, none)

/-! ## Roles and permissions -/

/-- Modelled from the spec: the scope of a permission (section 3), one resource
or global. -/
inductive Scope where
  | Global
  | Resource (name : String)
  deriving DecidableEq

/-- Modelled from the spec: the allow/deny decision a permission carries
(section 3). -/
inductive Effect where
  | Allow
  | Deny
  deriving DecidableEq

/-- Modelled from the spec: a permission is a (scope, action) pair with an
allow/deny decision (section 3).  The struct `app.Permission` is not among the
sources. -/
structure Permission where
  scope : Scope
  action : String
  effect : Effect
  deriving DecidableEq

/-- Modelled from the spec: a role is an identifier plus an ordered collection of
permissions (section 3).  The struct `app.Role` is not among the sources. -/
structure Role where
  ID : Nat
  Permissions : List Permission
  deriving DecidableEq

/-- Modelled from the spec: `App.GetRoleDetail(roleID)`, declared in `app/app.go`
with no implementation among the sources.  Roles are looked up by numeric
identifier in the role store (section 6); an unknown identifier gives nothing. -/
def GetRoleDetail (roles : List Role) (roleID : Nat) : Option Role :=
  roles.find? (fun r => decide (r.ID = roleID))

/-- Modelled from the spec: `App.GetRolesFromIDs(ids)`, declared in `app/app.go`
with no implementation among the sources.  Step 1 of section 4.3: each
identifier is resolved to its role, unknown identifiers are ignored. -/
def GetRolesFromIDs (roles : List Role) (ids : List Nat) : List Role :=
  ids.filterMap (GetRoleDetail roles)

/-- A permission applies to the action at exactly this scope. -/
def Permission.appliesAt (p : Permission) (scope : Scope) (action : String) : Bool :=
  decide (p.scope = scope) && decide (p.action = action)

/-- Modelled from the spec: step 2 of section 4.3 for one role.  The permissions of
the role matching the (resource-or-global, action) scope, the resource-level
ones being preferred when the role has both. -/
def Role.matching (r : Role) (resource action : String) : List Permission :=
  match r.Permissions.filter (fun p => p.appliesAt (Scope.Resource resource) action) with
  | [] => r.Permissions.filter (fun p => p.appliesAt Scope.Global action)
  | p :: ps => p :: ps

/-- Modelled from the spec: `App.GetRolePermission(roleID, action)`, declared in
`app/app.go` with no implementation among the sources; the target of section
4.3 is a (resource, action) pair, so the resource is passed next to the action.
The permission of the role that decides for it: among the role's matching
permissions a denying one if there is any (section 8: one deny and any number
of allows resolve to deny), else the first. -/
def GetRolePermission (roles : List Role) (roleID : Nat) (resource action : String) :
    Option Permission :=
  match GetRoleDetail roles roleID with
  | none => none
  | some r =>
    match (r.matching resource action).find? (fun p => decide (p.effect = Effect.Deny)) with
    | some p => some p
    | none => (r.matching resource action).head?

/-- Modelled from the spec: what the resolver returns (step 4 of section 4.3), the
matched permission on allow or the `Forbidden` signal. -/
inductive Decision where
  | Allowed (matched : Permission)
  | Forbidden
  deriving DecidableEq

/-- Whether the decision allows. -/
def Decision.isAllowed : Decision → Bool
  | .Allowed _ => true
  | .Forbidden => false

/-- The permissions that decide for the resolved roles, in role order. -/
def matchedPermissions (roles : List Role) (ids : List Nat) (resource action : String) :
    List Permission :=
  (GetRolesFromIDs roles ids).filterMap
    (fun r => GetRolePermission roles r.ID resource action)

/-- Modelled from the spec: the permission resolver of section 4.3, whose code is
not among the sources.  Deny overrides across roles; no matching permission at
all is an implicit deny. -/
def PermissionResolver (roles : List Role) (ids : List Nat) (resource action : String) :
    Decision :=
  if (matchedPermissions roles ids resource action).any
      (fun p => decide (p.effect = Effect.Deny)) then
    Decision.Forbidden
  else
    match (matchedPermissions roles ids resource action).head? with
    | some p => Decision.Allowed p
    | none => Decision.Forbidden

/-! ## Concrete collaborators used to instantiate the theorems -/

namespace Fixture

/-- An in-memory storage: the ids of the rows of the one resource `post`, and
switches that make the collaborator misbehave. -/
structure Store where
  rows : List Int
  mutationFault : Option GoError
  deleteFault : Option GoError
  /-- Another writer removes every row between the lookup and the delete. -/
  vanish : Bool

/-- A database client over `Store`. -/
def client : Client Store String String Int where
  Model := fun name s =>
    if name = "post" then (.ok name, s)
    else (.error ⟨ErrorKind.NotFound, "model not found"⟩, s)
  Only := fun q s =>
    match q.predicates with
    | [p] =>
      if p.Value ∈ s.rows then (.ok p.Value, s)
      else (.error ⟨ErrorKind.NotFound, "entity not found"⟩, s)
    | _ => (.error ⟨ErrorKind.InvalidPredicate, "one predicate expected"⟩, s)
  Mutation := fun model s =>
    match s.mutationFault with
    | some e => (.error e, s)
    | none => (.ok model, if s.vanish then { s with rows := [] } else s)
  Delete := fun m s =>
    match s.deleteFault with
    | some e => (.error e, s)
    | none =>
      match m.predicates with
      | [] => (.ok (s.rows.length : Int), { s with rows := [] })
      | p :: _ =>
        (.ok ((s.rows.filter (fun r => decide (r = p.Value))).length : Int),
          { s with rows := s.rows.filter (fun r => decide (r ≠ p.Value)) })

/-- The content service over the in-memory client. -/
def service : ContentService Store String String Int := ⟨client⟩

/-- A request naming a resource and an id. -/
def request (schema : String) (id : Int) : Context where
  Arg := fun name => if name = "schema" then schema else ""
  ArgInt := fun name => if name = "id" then id else 0

/-- A healthy store holding the given rows. -/
def store (rows : List Int) : Store := ⟨rows, none, none, false⟩

/-- A store on which building a mutation fails. -/
def storeMutationFault (rows : List Int) : Store :=
  ⟨rows, some ⟨ErrorKind.InvalidPayload, "cannot build mutation"⟩, none, false⟩

/-- A store on which the delete fails in the storage engine. -/
def storeDeleteFault (rows : List Int) : Store :=
  ⟨rows, none, some ⟨ErrorKind.StorageFailure, "disk failure"⟩, false⟩

/-- A store whose rows are removed by another writer after the lookup. -/
def storeVanishing (rows : List Int) : Store := ⟨rows, none, none, true⟩

/-- A schema builder knowing the one schema `post`, numbered 1. -/
def schemas : SchemaService Nat where
  Schema := fun name =>
    if name = "post" then (some 1, none)
    else (none, some ⟨ErrorKind.NotFound, "schema not found"⟩)

/-- A request for the detail of a schema. -/
def detailRequest (name : String) : Context where
  Arg := fun key => if key = "name" then name else ""
  ArgInt := fun _ => 0

/-- Role 1 denies delete on `post`. -/
def R1 : Role := ⟨1, [⟨Scope.Resource "post", "delete", Effect.Deny⟩]⟩

/-- Role 2 allows delete on `post`. -/
def R2 : Role := ⟨2, [⟨Scope.Resource "post", "delete", Effect.Allow⟩]⟩

end Fixture

/-! ## Theorems -/

section RunShapes

variable {σ M Mu Ent : Type} (cs : ContentService σ M Mu Ent) (c : Context) (s0 : σ)

/-- The run when model resolution fails. -/
theorem run_of_model_error {e : GoError} {s1 : σ}
    (hm : cs.DB.Model (c.Arg "schema") s0 = (.error e, s1)) :
    cs.run c s0 =
      ⟨none, some (errors.BadRequest e.Error),
        [Event.Model (c.Arg "schema") (.error e)], s1⟩ := by
  simp [ContentService.run, ContentService.Delete, Client.recorded, hm]

/-- The run when the existence lookup fails. -/
theorem run_of_only_error {model : M} {e : GoError} {s1 s2 : σ}
    (hm : cs.DB.Model (c.Arg "schema") s0 = (.ok model, s1))
    (ho : cs.DB.Only (Query.build model [app.EQ "id" (c.ArgInt "id")]) s1 = (.error e, s2)) :
    cs.run c s0 =
      ⟨none, some (errors.BadRequest e.Error),
        [Event.Model (c.Arg "schema") (.ok model),
         Event.Only (Query.build model [app.EQ "id" (c.ArgInt "id")]) (.error e)], s2⟩ := by
  simp [ContentService.run, ContentService.Delete, Client.recorded, hm, ho]

/-- The run when building the mutation fails. -/
theorem run_of_mutation_error {model : M} {ent : Ent} {e : GoError} {s1 s2 s3 : σ}
    (hm : cs.DB.Model (c.Arg "schema") s0 = (.ok model, s1))
    (ho : cs.DB.Only (Query.build model [app.EQ "id" (c.ArgInt "id")]) s1 = (.ok ent, s2))
    (hb : cs.DB.Mutation model s2 = (.error e, s3)) :
    cs.run c s0 =
      ⟨none, some (errors.BadRequest e.Error),
        [Event.Model (c.Arg "schema") (.ok model),
         Event.Only (Query.build model [app.EQ "id" (c.ArgInt "id")]) (.ok ent),
         Event.Mutation model (.error e)], s3⟩ := by
  simp [ContentService.run, ContentService.Delete, Client.recorded, hm, ho, hb]

/-- The run when the storage delete fails. -/
theorem run_of_delete_error {model : M} {ent : Ent} {mutation : Mu} {e : GoError}
    {s1 s2 s3 s4 : σ}
    (hm : cs.DB.Model (c.Arg "schema") s0 = (.ok model, s1))
    (ho : cs.DB.Only (Query.build model [app.EQ "id" (c.ArgInt "id")]) s1 = (.ok ent, s2))
    (hb : cs.DB.Mutation model s2 = (.ok mutation, s3))
    (hd : cs.DB.Delete (Mutation.Where mutation [app.EQ "id" (c.ArgInt "id")]) s3
      = (.error e, s4)) :
    cs.run c s0 =
      ⟨none, some (errors.BadRequest e.Error),
        [Event.Model (c.Arg "schema") (.ok model),
         Event.Only (Query.build model [app.EQ "id" (c.ArgInt "id")]) (.ok ent),
         Event.Mutation model (.ok mutation),
         Event.Delete (Mutation.Where mutation [app.EQ "id" (c.ArgInt "id")]) (.error e)],
        s4⟩ := by
  simp [ContentService.run, ContentService.Delete, Client.recorded, hm, ho, hb, hd]

/-- The run when all four steps succeed. -/
theorem run_of_success {model : M} {ent : Ent} {mutation : Mu} {n : Int}
    {s1 s2 s3 s4 : σ}
    (hm : cs.DB.Model (c.Arg "schema") s0 = (.ok model, s1))
    (ho : cs.DB.Only (Query.build model [app.EQ "id" (c.ArgInt "id")]) s1 = (.ok ent, s2))
    (hb : cs.DB.Mutation model s2 = (.ok mutation, s3))
    (hd : cs.DB.Delete (Mutation.Where mutation [app.EQ "id" (c.ArgInt "id")]) s3
      = (.ok n, s4)) :
    cs.run c s0 =
      ⟨none, none,
        [Event.Model (c.Arg "schema") (.ok model),
         Event.Only (Query.build model [app.EQ "id" (c.ArgInt "id")]) (.ok ent),
         Event.Mutation model (.ok mutation),
         Event.Delete (Mutation.Where mutation [app.EQ "id" (c.ArgInt "id")]) (.ok n)],
        s4⟩ := by
  simp [ContentService.run, ContentService.Delete, Client.recorded, hm, ho, hb, hd]

/-- Every run has one of five shapes, according to the first step that fails. -/
theorem run_cases :
    (∃ e s1, cs.run c s0 =
      ⟨none, some (errors.BadRequest e.Error),
        [Event.Model (c.Arg "schema") (.error e)], s1⟩) ∨
    (∃ model e s2, cs.run c s0 =
      ⟨none, some (errors.BadRequest e.Error),
        [Event.Model (c.Arg "schema") (.ok model),
         Event.Only (Query.build model [app.EQ "id" (c.ArgInt "id")]) (.error e)], s2⟩) ∨
    (∃ model ent e s3, cs.run c s0 =
      ⟨none, some (errors.BadRequest e.Error),
        [Event.Model (c.Arg "schema") (.ok model),
         Event.Only (Query.build model [app.EQ "id" (c.ArgInt "id")]) (.ok ent),
         Event.Mutation model (.error e)], s3⟩) ∨
    (∃ model ent mutation e s4, cs.run c s0 =
      ⟨none, some (errors.BadRequest e.Error),
        [Event.Model (c.Arg "schema") (.ok model),
         Event.Only (Query.build model [app.EQ "id" (c.ArgInt "id")]) (.ok ent),
         Event.Mutation model (.ok mutation),
         Event.Delete (Mutation.Where mutation [app.EQ "id" (c.ArgInt "id")]) (.error e)],
        s4⟩) ∨
    (∃ model ent mutation n s4, cs.run c s0 =
      ⟨none, none,
        [Event.Model (c.Arg "schema") (.ok model),
         Event.Only (Query.build model [app.EQ "id" (c.ArgInt "id")]) (.ok ent),
         Event.Mutation model (.ok mutation),
         Event.Delete (Mutation.Where mutation [app.EQ "id" (c.ArgInt "id")]) (.ok n)],
        s4⟩) := by
  rcases hm : cs.DB.Model (c.Arg "schema") s0 with ⟨_ | model, s1⟩
  · exact Or.inl ⟨_, _, run_of_model_error cs c s0 hm⟩
  rcases ho : cs.DB.Only (Query.build model [app.EQ "id" (c.ArgInt "id")]) s1
    with ⟨_ | ent, s2⟩
  · exact Or.inr (Or.inl ⟨_, _, _, run_of_only_error cs c s0 hm ho⟩)
  rcases hb : cs.DB.Mutation model s2 with ⟨_ | mutation, s3⟩
  · exact Or.inr (Or.inr (Or.inl ⟨_, _, _, _, run_of_mutation_error cs c s0 hm ho hb⟩))
  rcases hd : cs.DB.Delete (Mutation.Where mutation [app.EQ "id" (c.ArgInt "id")]) s3
    with ⟨_ | n, s4⟩
  · exact Or.inr (Or.inr (Or.inr (Or.inl
      ⟨_, _, _, _, _, run_of_delete_error cs c s0 hm ho hb hd⟩)))
  · exact Or.inr (Or.inr (Or.inr (Or.inr
      ⟨_, _, _, _, _, run_of_success cs c s0 hm ho hb hd⟩)))

/-- Recording is transparent: the run returns what `Delete` returns against the
plain client, and leaves the storage state `Delete` leaves. -/
theorem run_agrees_with_Delete :
    ((cs.run c s0).result, (cs.run c s0).err) = (cs.Delete c s0).1 ∧
      (cs.run c s0).state = (cs.Delete c s0).2 := by
  rcases hm : cs.DB.Model (c.Arg "schema") s0 with ⟨_ | model, s1⟩
  · simp [ContentService.run, ContentService.Delete, Client.recorded, hm]
  rcases ho : cs.DB.Only (Query.build model [app.EQ "id" (c.ArgInt "id")]) s1
    with ⟨_ | ent, s2⟩
  · simp [ContentService.run, ContentService.Delete, Client.recorded, hm, ho]
  rcases hb : cs.DB.Mutation model s2 with ⟨_ | mutation, s3⟩
  · simp [ContentService.run, ContentService.Delete, Client.recorded, hm, ho, hb]
  rcases hd : cs.DB.Delete (Mutation.Where mutation [app.EQ "id" (c.ArgInt "id")]) s3
    with ⟨_ | n, s4⟩
  · simp [ContentService.run, ContentService.Delete, Client.recorded, hm, ho, hb, hd]
  · simp [ContentService.run, ContentService.Delete, Client.recorded, hm, ho, hb, hd]

end RunShapes

/-! ### Failure of the existence lookup -/

/-- C1: when the resource name resolves to a model and the existence lookup
`Query(EQ("id", id)).Only()` returns an error, `Delete` returns a nil result and
a non-nil error, no mutation is built, no delete is issued, and the storage
state is the one the lookup left. -/
theorem delete_lookup_failure_reaches_no_mutation {σ M Mu Ent : Type}
    (cs : ContentService σ M Mu Ent) (c : Context) (s0 s1 s2 : σ) (model : M) (e : GoError)
    (hm : cs.DB.Model (c.Arg "schema") s0 = (.ok model, s1))
    (ho : cs.DB.Only (Query.build model [app.EQ "id" (c.ArgInt "id")]) s1 = (.error e, s2)) :
    (cs.run c s0).err ≠ none ∧ (cs.run c s0).result = none ∧
      executed Step.Mutation (cs.run c s0).trace = false ∧
      executed Step.Delete (cs.run c s0).trace = false ∧
      (cs.run c s0).state = s2 := by
  rw [run_of_only_error cs c s0 hm ho]
  simp [executed, Event.step]

/-- C1 at the scenario of the spec: resource `post`, id 5, no such row. -/
theorem delete_lookup_failure_reaches_no_mutation_witness :
    (Fixture.service.run (Fixture.request "post" 5) (Fixture.store [])).err ≠ none ∧
      (Fixture.service.run (Fixture.request "post" 5) (Fixture.store [])).result = none ∧
      executed Step.Mutation
        (Fixture.service.run (Fixture.request "post" 5) (Fixture.store [])).trace = false ∧
      executed Step.Delete
        (Fixture.service.run (Fixture.request "post" 5) (Fixture.store [])).trace = false ∧
      (Fixture.service.run (Fixture.request "post" 5) (Fixture.store [])).state
        = Fixture.store [] :=
  delete_lookup_failure_reaches_no_mutation Fixture.service (Fixture.request "post" 5)
    (Fixture.store []) (Fixture.store []) (Fixture.store []) "post"
    ⟨ErrorKind.NotFound, "entity not found"⟩ rfl rfl

/-- C2, as stated, fails: resource `post` resolves, no row has id 5, the lookup
reports an error of kind `NotFound`, and the error `Delete` returns has kind
`BadRequest`, not `NotFound`. -/
theorem delete_missing_row_kind_counterexample :
    Fixture.service.DB.Model ((Fixture.request "post" 5).Arg "schema") (Fixture.store [])
        = (.ok "post", Fixture.store []) ∧
      Fixture.service.DB.Only
          (Query.build "post" [app.EQ "id" ((Fixture.request "post" 5).ArgInt "id")])
          (Fixture.store [])
        = (.error ⟨ErrorKind.NotFound, "entity not found"⟩, Fixture.store []) ∧
      (Fixture.service.run (Fixture.request "post" 5) (Fixture.store [])).err
        = some ⟨ErrorKind.BadRequest, "entity not found"⟩ ∧
      (Fixture.service.run (Fixture.request "post" 5) (Fixture.store [])).err.map GoError.kind
        ≠ some ErrorKind.NotFound := by
  refine ⟨rfl, rfl, by decide, by decide⟩

/-- C2 (amended): when the resource name resolves and the existence lookup fails
with error `e`, the error `Delete` returns is `errors.BadRequest(e.Error())`: its
kind is `BadRequest` and its message is the message of `e`. -/
theorem delete_missing_row_is_bad_request {σ M Mu Ent : Type}
    (cs : ContentService σ M Mu Ent) (c : Context) (s0 s1 s2 : σ) (model : M) (e : GoError)
    (hm : cs.DB.Model (c.Arg "schema") s0 = (.ok model, s1))
    (ho : cs.DB.Only (Query.build model [app.EQ "id" (c.ArgInt "id")]) s1 = (.error e, s2)) :
    (cs.run c s0).err = some (errors.BadRequest e.Error) ∧
      (cs.run c s0).err.map GoError.kind = some ErrorKind.BadRequest ∧
      (cs.run c s0).err.map GoError.message = some e.message := by
  rw [run_of_only_error cs c s0 hm ho]
  simp [errors.BadRequest, GoError.Error]

/-- C2 (amended) at the scenario of the spec. -/
theorem delete_missing_row_is_bad_request_witness :
    (Fixture.service.run (Fixture.request "post" 5) (Fixture.store [])).err
        = some (errors.BadRequest "entity not found") ∧
      (Fixture.service.run (Fixture.request "post" 5) (Fixture.store [])).err.map GoError.kind
        = some ErrorKind.BadRequest ∧
      (Fixture.service.run (Fixture.request "post" 5) (Fixture.store [])).err.map
          GoError.message = some "entity not found" :=
  delete_missing_row_is_bad_request Fixture.service (Fixture.request "post" 5)
    (Fixture.store []) (Fixture.store []) (Fixture.store []) "post"
    ⟨ErrorKind.NotFound, "entity not found"⟩ rfl rfl

/-! ### Failure of model resolution -/

/-- C3: when `DB().Model` cannot resolve the resource name, `Delete` returns a
nil result and a non-nil error; the only call the database client received is
that `Model` call: no lookup, no mutation construction and no delete, and the
storage state is the one `Model` left. -/
theorem delete_unknown_resource_reaches_no_storage {σ M Mu Ent : Type}
    (cs : ContentService σ M Mu Ent) (c : Context) (s0 s1 : σ) (e : GoError)
    (hm : cs.DB.Model (c.Arg "schema") s0 = (.error e, s1)) :
    (cs.run c s0).err ≠ none ∧ (cs.run c s0).result = none ∧
      (cs.run c s0).trace = [Event.Model (c.Arg "schema") (.error e)] ∧
      executed Step.Only (cs.run c s0).trace = false ∧
      executed Step.Mutation (cs.run c s0).trace = false ∧
      executed Step.Delete (cs.run c s0).trace = false ∧
      (cs.run c s0).state = s1 := by
  rw [run_of_model_error cs c s0 hm]
  simp [executed, Event.step]

/-- C3 at a request for the unknown resource `comment`. -/
theorem delete_unknown_resource_reaches_no_storage_witness :
    (Fixture.service.run (Fixture.request "comment" 5) (Fixture.store [5])).err ≠ none ∧
      (Fixture.service.run (Fixture.request "comment" 5) (Fixture.store [5])).result = none ∧
      (Fixture.service.run (Fixture.request "comment" 5) (Fixture.store [5])).trace
        = [Event.Model ((Fixture.request "comment" 5).Arg "schema")
            (.error ⟨ErrorKind.NotFound, "model not found"⟩)] ∧
      executed Step.Only
        (Fixture.service.run (Fixture.request "comment" 5) (Fixture.store [5])).trace = false ∧
      executed Step.Mutation
        (Fixture.service.run (Fixture.request "comment" 5) (Fixture.store [5])).trace = false ∧
      executed Step.Delete
        (Fixture.service.run (Fixture.request "comment" 5) (Fixture.store [5])).trace = false ∧
      (Fixture.service.run (Fixture.request "comment" 5) (Fixture.store [5])).state
        = Fixture.store [5] :=
  delete_unknown_resource_reaches_no_storage Fixture.service (Fixture.request "comment" 5)
    (Fixture.store [5]) (Fixture.store [5]) ⟨ErrorKind.NotFound, "model not found"⟩ rfl

/-! ### Error kinds -/

/-- C4, as stated, fails: four requests failing for the four causes (unknown
resource, missing row, mutation construction, storage failure, with
collaborator errors of kinds `NotFound`, `NotFound`, `InvalidPayload`,
`StorageFailure`) all make `Delete` return an error of the one kind
`BadRequest`. -/
theorem delete_error_kinds_counterexample :
    (failedStep (Fixture.service.run (Fixture.request "comment" 5) (Fixture.store [5])).trace
        = some Step.Model ∧
      (Fixture.service.run (Fixture.request "comment" 5) (Fixture.store [5])).err.map
          GoError.kind = some ErrorKind.BadRequest) ∧
    (failedStep (Fixture.service.run (Fixture.request "post" 5) (Fixture.store [])).trace
        = some Step.Only ∧
      (Fixture.service.run (Fixture.request "post" 5) (Fixture.store [])).err.map
          GoError.kind = some ErrorKind.BadRequest) ∧
    (failedStep
        (Fixture.service.run (Fixture.request "post" 5) (Fixture.storeMutationFault [5])).trace
        = some Step.Mutation ∧
      (Fixture.service.run (Fixture.request "post" 5) (Fixture.storeMutationFault [5])).err.map
          GoError.kind = some ErrorKind.BadRequest) ∧
    (failedStep
        (Fixture.service.run (Fixture.request "post" 5) (Fixture.storeDeleteFault [5])).trace
        = some Step.Delete ∧
      (Fixture.service.run (Fixture.request "post" 5) (Fixture.storeDeleteFault [5])).err.map
          GoError.kind = some ErrorKind.BadRequest) := by
  refine ⟨⟨by decide, by decide⟩, ⟨by decide, by decide⟩, ⟨by decide, by decide⟩,
    ⟨by decide, by decide⟩⟩

/-- C4 (amended): every error `Delete` returns, whatever its cause, has the kind
`BadRequest`, so any two errors it returns (on any two requests) have the same
kind; the error is `errors.BadRequest` of the message of the error the last
collaborator call returned, so the kind of that collaborator error is not
passed on and two causes differ at most in message text. -/
theorem delete_errors_all_bad_request {σ M Mu Ent : Type}
    (cs cs' : ContentService σ M Mu Ent) (c c' : Context) (s0 s0' : σ) (e e' : GoError)
    (h : (cs.run c s0).err = some e) (h' : (cs'.run c' s0').err = some e') :
    e.kind = ErrorKind.BadRequest ∧ e.kind = e'.kind ∧
      ∃ ev cause, (cs.run c s0).trace.getLast? = some ev ∧ ev.error = some cause ∧
        e = errors.BadRequest cause.Error := by
  have key : ∀ (cs : ContentService σ M Mu Ent) (c : Context) (s0 : σ) (e : GoError),
      (cs.run c s0).err = some e →
      e.kind = ErrorKind.BadRequest ∧
        ∃ ev cause, (cs.run c s0).trace.getLast? = some ev ∧ ev.error = some cause ∧
          e = errors.BadRequest cause.Error := by
    intro cs c s0 e h
    rcases run_cases cs c s0 with ⟨x, s, hr⟩ | ⟨m, x, s, hr⟩ | ⟨m, en, x, s, hr⟩ |
        ⟨m, en, mu, x, s, hr⟩ | ⟨m, en, mu, n, s, hr⟩ <;> rw [hr] at h ⊢ <;>
      simp at h
    all_goals
      subst h
      exact ⟨rfl, _, x, rfl, rfl, rfl⟩
  obtain ⟨hk, hex⟩ := key cs c s0 e h
  obtain ⟨hk', _⟩ := key cs' c' s0' e' h'
  exact ⟨hk, hk.trans hk'.symm, hex⟩

/-- C4 (amended) at an unknown resource and at a storage failure. -/
theorem delete_errors_all_bad_request_witness :
    (⟨ErrorKind.BadRequest, "model not found"⟩ : GoError).kind = ErrorKind.BadRequest ∧
      (⟨ErrorKind.BadRequest, "model not found"⟩ : GoError).kind
        = (⟨ErrorKind.BadRequest, "disk failure"⟩ : GoError).kind ∧
      ∃ ev cause,
        (Fixture.service.run (Fixture.request "comment" 5) (Fixture.store [5])).trace.getLast?
          = some ev ∧ ev.error = some cause ∧
        (⟨ErrorKind.BadRequest, "model not found"⟩ : GoError)
          = errors.BadRequest cause.Error :=
  delete_errors_all_bad_request Fixture.service Fixture.service
    (Fixture.request "comment" 5) (Fixture.request "post" 5)
    (Fixture.store [5]) (Fixture.storeDeleteFault [5])
    ⟨ErrorKind.BadRequest, "model not found"⟩ ⟨ErrorKind.BadRequest, "disk failure"⟩
    (by decide) (by decide)

/-! ### The delete that reaches storage -/

/-- C5: every delete the database client receives from `Delete` carries the
target predicate `EQ("id", c.ArgInt("id"))`, never an empty predicate list, and
it is preceded by a successful existence lookup on the same model with the same
predicate. -/
theorem delete_targets_checked_row {σ M Mu Ent : Type}
    (cs : ContentService σ M Mu Ent) (c : Context) (s0 : σ)
    (mu : Mutation Mu) (out : Except GoError Int)
    (h : Event.Delete mu out ∈ (cs.run c s0).trace) :
    mu.predicates = [app.EQ "id" (c.ArgInt "id")] ∧ mu.predicates ≠ [] ∧
      ∃ model ent, (cs.run c s0).trace =
        [Event.Model (c.Arg "schema") (.ok model),
         Event.Only (Query.build model mu.predicates) (.ok ent),
         Event.Mutation model (.ok mu.handle),
         Event.Delete mu out] := by
  rcases run_cases cs c s0 with ⟨x, s, hr⟩ | ⟨m, x, s, hr⟩ | ⟨m, en, x, s, hr⟩ |
      ⟨m, en, mu', x, s, hr⟩ | ⟨m, en, mu', n, s, hr⟩ <;> rw [hr] at h ⊢ <;>
    simp at h
  all_goals
    obtain ⟨hmu, hout⟩ := h
    subst hmu hout
    exact ⟨rfl, by simp [Mutation.Where], m, en, rfl⟩

/-- C5 at the deletion of the existing row 5 of `post`. -/
theorem delete_targets_checked_row_witness :
    (Mutation.Where "post" [app.EQ "id" 5]).predicates
        = [app.EQ "id" ((Fixture.request "post" 5).ArgInt "id")] ∧
      (Mutation.Where "post" [app.EQ "id" 5]).predicates ≠ [] ∧
      ∃ model ent, (Fixture.service.run (Fixture.request "post" 5) (Fixture.store [5])).trace =
        [Event.Model ((Fixture.request "post" 5).Arg "schema") (.ok model),
         Event.Only (Query.build model (Mutation.Where "post" [app.EQ "id" 5]).predicates)
           (.ok ent),
         Event.Mutation model (.ok (Mutation.Where "post" [app.EQ "id" 5]).handle),
         Event.Delete (Mutation.Where "post" [app.EQ "id" 5]) (.ok 1)] :=
  delete_targets_checked_row Fixture.service (Fixture.request "post" 5) (Fixture.store [5])
    (Mutation.Where "post" [app.EQ "id" 5]) (.ok 1)
    (List.Mem.tail _ (List.Mem.tail _ (List.Mem.tail _ (List.Mem.head _))))

/-! ### No retries, fixed order -/

/-- C7: one call of `Delete` invokes model resolution, the existence lookup,
mutation construction and the storage delete at most once each, whatever the
collaborators answer; it makes at most four calls in all. -/
theorem delete_calls_each_step_at_most_once {σ M Mu Ent : Type}
    (cs : ContentService σ M Mu Ent) (c : Context) (s0 : σ) :
    (∀ s : Step, countStep s (cs.run c s0).trace ≤ 1) ∧
      (cs.run c s0).trace.length ≤ 4 := by
  rcases run_cases cs c s0 with ⟨x, s, hr⟩ | ⟨m, x, s, hr⟩ | ⟨m, en, x, s, hr⟩ |
      ⟨m, en, mu, x, s, hr⟩ | ⟨m, en, mu, n, s, hr⟩ <;> rw [hr] <;>
    refine ⟨fun s => ?_, by simp⟩ <;> cases s <;>
    simp [countStep, Event.step, List.filter]

/-- C9: `Delete` runs model resolution, existence lookup, mutation construction
and storage delete in this fixed order and stops at the first failure.  Model
resolution is always the first call, made for `c.Arg("schema")` on the initial
storage state; the calls are an initial segment of the four steps; each later
step is executed exactly when all steps before it succeeded (so the delete is
issued exactly when the three steps before it succeeded); every call but the
last returned a nil error, and a non-nil error is returned exactly when the
last call made is a failed one, which is then the one failed step of the run
(nothing runs after it); `Delete` returns `(nil, nil)` exactly when all four
steps succeeded, and a nil result with a non-nil error otherwise. -/
theorem delete_runs_steps_in_order_and_short_circuits {σ M Mu Ent : Type}
    (cs : ContentService σ M Mu Ent) (c : Context) (s0 : σ) :
    (cs.run c s0).trace.head?
        = some (Event.Model (c.Arg "schema") (cs.DB.Model (c.Arg "schema") s0).1) ∧
      ((cs.run c s0).trace.map Event.step
        <+: [Step.Model, Step.Only, Step.Mutation, Step.Delete]) ∧
      (cs.run c s0).trace.dropLast.all Event.ok = true ∧
      executed Step.Model (cs.run c s0).trace = true ∧
      (executed Step.Only (cs.run c s0).trace = true ↔
        succeeded Step.Model (cs.run c s0).trace = true) ∧
      (executed Step.Mutation (cs.run c s0).trace = true ↔
        (succeeded Step.Model (cs.run c s0).trace = true ∧
          succeeded Step.Only (cs.run c s0).trace = true)) ∧
      (executed Step.Delete (cs.run c s0).trace = true ↔
        (succeeded Step.Model (cs.run c s0).trace = true ∧
          succeeded Step.Only (cs.run c s0).trace = true ∧
          succeeded Step.Mutation (cs.run c s0).trace = true)) ∧
      (((cs.run c s0).result = none ∧ (cs.run c s0).err = none) ↔
        (succeeded Step.Model (cs.run c s0).trace = true ∧
          succeeded Step.Only (cs.run c s0).trace = true ∧
          succeeded Step.Mutation (cs.run c s0).trace = true ∧
          succeeded Step.Delete (cs.run c s0).trace = true)) ∧
      (¬ (succeeded Step.Model (cs.run c s0).trace = true ∧
          succeeded Step.Only (cs.run c s0).trace = true ∧
          succeeded Step.Mutation (cs.run c s0).trace = true ∧
          succeeded Step.Delete (cs.run c s0).trace = true) →
        (cs.run c s0).result = none ∧ (cs.run c s0).err ≠ none) ∧
      ((cs.run c s0).err ≠ none ↔
        ∃ ev, (cs.run c s0).trace.getLast? = some ev ∧ ev.ok = false) ∧
      ((cs.run c s0).err = none ↔ failedStep (cs.run c s0).trace = none) ∧
      (∀ s, failedStep (cs.run c s0).trace = some s →
        (cs.run c s0).trace.getLast?.map Event.step = some s) := by
  rcases hm : cs.DB.Model (c.Arg "schema") s0 with ⟨x | model, s1⟩
  · rw [run_of_model_error cs c s0 hm]
    refine ⟨rfl, by simp only [List.map, Event.step]; decide, ?_⟩
    simp [executed, succeeded, failedStep, Event.step, Event.ok, Event.error]
  rcases ho : cs.DB.Only (Query.build model [app.EQ "id" (c.ArgInt "id")]) s1
    with ⟨x | ent, s2⟩
  · rw [run_of_only_error cs c s0 hm ho]
    refine ⟨rfl, by simp only [List.map, Event.step]; decide, ?_⟩
    simp [executed, succeeded, failedStep, Event.step, Event.ok, Event.error]
  rcases hb : cs.DB.Mutation model s2 with ⟨x | mutation, s3⟩
  · rw [run_of_mutation_error cs c s0 hm ho hb]
    refine ⟨rfl, by simp only [List.map, Event.step]; decide, ?_⟩
    simp [executed, succeeded, failedStep, Event.step, Event.ok, Event.error]
  rcases hd : cs.DB.Delete (Mutation.Where mutation [app.EQ "id" (c.ArgInt "id")]) s3
    with ⟨x | n, s4⟩
  · rw [run_of_delete_error cs c s0 hm ho hb hd]
    refine ⟨rfl, by simp only [List.map, Event.step]; decide, ?_⟩
    simp [executed, succeeded, failedStep, Event.step, Event.ok, Event.error]
  · rw [run_of_success cs c s0 hm ho hb hd]
    refine ⟨rfl, by simp only [List.map, Event.step]; decide, ?_⟩
    simp [executed, succeeded, failedStep, Event.step, Event.ok, Event.error]

/-- C9 at a run whose mutation construction fails: the calls are exactly model
resolution, lookup and mutation construction, the failed step is the mutation
construction, no delete is issued and the row is still stored, the result is
nil and the error non-nil. -/
theorem delete_runs_steps_in_order_and_short_circuits_witness :
    (Fixture.service.run (Fixture.request "post" 5) (Fixture.storeMutationFault [5])).trace.map
        Event.step = [Step.Model, Step.Only, Step.Mutation] ∧
      failedStep
        (Fixture.service.run (Fixture.request "post" 5) (Fixture.storeMutationFault [5])).trace
        = some Step.Mutation ∧
      (Fixture.service.run (Fixture.request "post" 5)
        (Fixture.storeMutationFault [5])).state.rows = [5] ∧
      (Fixture.service.run (Fixture.request "post" 5)
        (Fixture.storeMutationFault [5])).result = none ∧
      (Fixture.service.run (Fixture.request "post" 5)
        (Fixture.storeMutationFault [5])).err ≠ none :=
  ⟨by decide, by decide, by decide,
    (delete_runs_steps_in_order_and_short_circuits Fixture.service (Fixture.request "post" 5)
      (Fixture.storeMutationFault [5])).2.2.2.2.2.2.2.2.1 (by decide)⟩

/-! ### Values returned by the collaborators -/

/-- C10: whenever the existence lookup and the storage delete both returned a
nil error, `Delete` returns `(nil, nil)`, whatever entity the lookup returned
and whatever affected-row count the delete reported. -/
theorem delete_ignores_entity_and_count {σ M Mu Ent : Type}
    (cs : ContentService σ M Mu Ent) (c : Context) (s0 : σ)
    (q : Query M) (ent : Ent) (mu : Mutation Mu) (n : Int)
    (hl : Event.Only q (.ok ent) ∈ (cs.run c s0).trace)
    (hd : Event.Delete mu (.ok n) ∈ (cs.run c s0).trace) :
    (cs.run c s0).result = none ∧ (cs.run c s0).err = none := by
  rcases run_cases cs c s0 with ⟨x, s, hr⟩ | ⟨m, x, s, hr⟩ | ⟨m, en, x, s, hr⟩ |
      ⟨m, en, mu', x, s, hr⟩ | ⟨m, en, mu', k, s, hr⟩ <;> rw [hr] at hl hd ⊢ <;>
    simp at hl hd ⊢

/-- C10 at a delete that reports zero affected rows: the row was there at the
lookup and removed by another writer before the delete. -/
theorem delete_ignores_entity_and_count_witness :
    (Fixture.service.run (Fixture.request "post" 5) (Fixture.storeVanishing [5])).result
        = none ∧
      (Fixture.service.run (Fixture.request "post" 5) (Fixture.storeVanishing [5])).err
        = none :=
  delete_ignores_entity_and_count Fixture.service (Fixture.request "post" 5)
    (Fixture.storeVanishing [5]) (Query.build "post" [app.EQ "id" 5]) 5
    (Mutation.Where "post" [app.EQ "id" 5]) 0
    (List.Mem.tail _ (List.Mem.head _))
    (List.Mem.tail _ (List.Mem.tail _ (List.Mem.tail _ (List.Mem.head _))))

/-! ### `SchemaService.Detail` -/

/-- C6: `Detail` returns the outcome of the schema builder's lookup for
`c.Arg("name")`: on a nil error the looked-up schema with a nil error, on an
error `e` a nil schema with that same `e`; it never returns both a schema and
an error. -/
theorem detail_returns_lookup_outcome {S : Type} (ss : SchemaService S) (c : Context) :
    (∀ s, ss.Schema (c.Arg "name") = (s, none) → ss.Detail c = (s, none)) ∧
      (∀ s e, ss.Schema (c.Arg "name") = (s, some e) → ss.Detail c = (none, some e)) ∧
      ¬ ((ss.Detail c).1.isSome = true ∧ (ss.Detail c).2.isSome = true) := by
  refine ⟨fun s h => ?_, fun s e h => ?_, ?_⟩
  · simp [SchemaService.Detail, h]
  · simp [SchemaService.Detail, h]
  · rcases h : ss.Schema (c.Arg "name") with ⟨s, _ | e⟩ <;>
      simp [SchemaService.Detail, h]

/-- C6 at the known schema `post` and at the unknown schema `comment`. -/
theorem detail_returns_lookup_outcome_witness :
    Fixture.schemas.Detail (Fixture.detailRequest "post") = (some 1, none) ∧
      Fixture.schemas.Detail (Fixture.detailRequest "comment")
        = (none, some ⟨ErrorKind.NotFound, "schema not found"⟩) :=
  ⟨(detail_returns_lookup_outcome Fixture.schemas (Fixture.detailRequest "post")).1
      (some 1) rfl,
    (detail_returns_lookup_outcome Fixture.schemas (Fixture.detailRequest "comment")).2.1
      none ⟨ErrorKind.NotFound, "schema not found"⟩ rfl⟩

/-! ### Permission resolution -/

/-- A Boolean test holds somewhere in a list or in a reordering of it alike. -/
theorem any_eq_of_perm {α : Type} {l l' : List α} (h : l.Perm l') (f : α → Bool) :
    l.any f = l'.any f := by
  rw [Bool.eq_iff_iff]
  simp only [List.any_eq_true]
  constructor
  · rintro ⟨x, hx, hf⟩
    exact ⟨x, h.mem_iff.mp hx, hf⟩
  · rintro ⟨x, hx, hf⟩
    exact ⟨x, h.mem_iff.mpr hx, hf⟩

/-- Reordering the role identifiers reorders the matched permissions. -/
theorem matchedPermissions_perm (roles : List Role) {ids ids' : List Nat}
    (h : ids.Perm ids') (resource action : String) :
    (matchedPermissions roles ids resource action).Perm
      (matchedPermissions roles ids' resource action) :=
  (h.filterMap _).filterMap _

/-- The resolver allows exactly when some permission matched and none of the
matched permissions denies. -/
theorem isAllowed_PermissionResolver (roles : List Role) (ids : List Nat)
    (resource action : String) :
    (PermissionResolver roles ids resource action).isAllowed =
      (!(matchedPermissions roles ids resource action).any
          (fun p => decide (p.effect = Effect.Deny)) &&
        decide (0 < (matchedPermissions roles ids resource action).length)) := by
  unfold PermissionResolver
  cases hany : (matchedPermissions roles ids resource action).any
      (fun p => decide (p.effect = Effect.Deny))
  · cases hl : matchedPermissions roles ids resource action <;>
      simp [Decision.isAllowed]
  · simp [Decision.isAllowed]

/-- C8: the allow/deny decision of the permission resolver is the same for every
reordering of the role identifiers, and when the deciding permission of any
resolved role denies, the decision is `Forbidden` (in either order). -/
theorem permission_decision_order_independent_deny_overrides
    (roles : List Role) (ids ids' : List Nat) (resource action : String)
    (hperm : ids.Perm ids') :
    (PermissionResolver roles ids resource action).isAllowed
        = (PermissionResolver roles ids' resource action).isAllowed ∧
      ((∃ role ∈ GetRolesFromIDs roles ids, ∃ p,
          GetRolePermission roles role.ID resource action = some p ∧ p.effect = Effect.Deny) →
        PermissionResolver roles ids resource action = Decision.Forbidden ∧
          PermissionResolver roles ids' resource action = Decision.Forbidden) := by
  have hm := matchedPermissions_perm roles hperm resource action
  constructor
  · rw [isAllowed_PermissionResolver, isAllowed_PermissionResolver,
      any_eq_of_perm hm, hm.length_eq]
  · rintro ⟨role, hrole, p, hp, hdeny⟩
    have hmem : p ∈ matchedPermissions roles ids resource action :=
      List.mem_filterMap.mpr ⟨role, hrole, hp⟩
    have hany : (matchedPermissions roles ids resource action).any
        (fun p => decide (p.effect = Effect.Deny)) = true :=
      List.any_eq_true.mpr ⟨p, hmem, by simp [hdeny]⟩
    have hany' : (matchedPermissions roles ids' resource action).any
        (fun p => decide (p.effect = Effect.Deny)) = true := by
      rw [← any_eq_of_perm hm]
      exact hany
    constructor
    · simp [PermissionResolver, hany]
    · simp [PermissionResolver, hany']

/-- C8 at the scenario of the spec: `R1` denies and `R2` allows delete on `post`;
the caller holding `[R1, R2]` and the caller holding `[R2, R1]` are both
`Forbidden`. -/
theorem permission_decision_order_independent_deny_overrides_witness :
    PermissionResolver [Fixture.R1, Fixture.R2] [1, 2] "post" "delete" = Decision.Forbidden ∧
      PermissionResolver [Fixture.R1, Fixture.R2] [2, 1] "post" "delete"
        = Decision.Forbidden :=
  (permission_decision_order_independent_deny_overrides [Fixture.R1, Fixture.R2] [1, 2] [2, 1]
    "post" "delete" (List.Perm.swap 2 1 [])).2
    ⟨Fixture.R1, by decide, ⟨Scope.Resource "post", "delete", Effect.Deny⟩, by decide, rfl⟩

end fastschema
